import Mathlib

/-!
Shallow embedding of src/realtime_portfolio_system.py
(class RealtimePortfolioSystemFixed): the normalizer
prepare_options_data, the statistics updates performed inside
update_cycle, the update_cycle control flow, and the wait policy of the
run scheduler loop.  Prices and elapsed times are modelled as rationals,
counters as integers (Python ints).
-/

/-- Tickers are symbol strings, e.g. "AAPL". -/
abbrev Ticker := String

/-- Prices and elapsed times. -/
abbrev Price := ℚ

/-- Raw option records are opaque to the core: the per-record
transformation body in the source is an elided comment, so only their
count matters here. -/
abbrev RawOption := ℕ

/-- The nested market-info value stored under the key market_data in a
mapping-shaped payload.  In Python it may itself be a dict (whose keys
are invisible to getattr) or an attribute-bearing object.  The field
records the value bound to spot_price in either representation. -/
inductive MarketInfo where
  | dictShape (spot_price : Option Price)
  | objShape (spot_price : Option Price)
deriving DecidableEq

/-- Python getattr(market_info, "spot_price", default): returns the
attribute when the value is an attribute-bearing object that has it;
a dict never exposes its keys as attributes, so the default is returned
regardless of the keys a dict-shaped value holds. -/
def getattrSpot (mi : MarketInfo) (default : Price) : Price :=
  match mi with
  | .dictShape _ => default
  | .objShape sp => sp.getD default

/-- RawSymbolPayload, lines 53-64 of the source: either a keyed mapping
(possibly holding market_data, spot_price and options keys) or an
attribute-bearing object (possibly exposing spot_price and options). -/
inductive RawSymbolPayload where
  | dictShape (market_data : Option MarketInfo) (spot_price : Option Price)
      (options : Option (List RawOption))
  | objShape (spot_price : Option Price) (options : Option (List RawOption))
deriving DecidableEq

/-- CanonicalMarketEntry: the dict written at line 66 of the source. -/
structure MarketEntry where
  spot_price : Price
deriving DecidableEq

/-- Spot-price extraction, lines 55-63 of the source.  For a mapping with
a market_data key the price is read by getattr from the nested value with
data.get spot_price 0 as the eagerly evaluated default; for a mapping
without, from the top-level spot_price key, else 0; for an object, from
the spot_price attribute, else 0. -/
def extractSpot (data : RawSymbolPayload) : Price :=
  match data with
  | .dictShape market_data spot opts =>
    match market_data, opts with
    | some market_info, _ => getattrSpot market_info (spot.getD 0)
    | none, _ => spot.getD 0
  | .objShape spot _ => spot.getD 0

/-- Options-list extraction, lines 61 and 64 of the source:
data.get options [] for a mapping, the options attribute or [] for an
object. -/
def extractOptionsList (data : RawSymbolPayload) : List RawOption :=
  match data with
  | .dictShape _ _ opts => opts.getD []
  | .objShape _ opts => opts.getD []

/-- Loop body of prepare_options_data for one symbol, lines 53-77 of the
source: extract the spot price and options list, record a market entry
unconditionally, then run the per-option loop whose only body is
options.extend(processed_options[:5]) with processed_options = [] fixed
before the loop (the actual per-record processing is an elided comment
in the source), so each iteration extends the result by the empty
list. -/
def prepare_step (acc : List RawOption × List (Ticker × MarketEntry))
    (entry : Ticker × RawSymbolPayload) :
    List RawOption × List (Ticker × MarketEntry) :=
  let symbol := entry.1
  let data := entry.2
  let spot := extractSpot data
  let options_list := extractOptionsList data
  let market := acc.2 ++ [(symbol, { spot_price := spot })]
  let processed_options : List RawOption := []
  let options := options_list.foldl
    (fun os _opt => os ++ processed_options.take 5) acc.1
  (options, market)

/-- prepare_options_data, lines 48-78 of the source: iterate the fetched
mapping in its order, folding the per-symbol loop body over empty
accumulators. -/
def prepare_options_data (live_data : List (Ticker × RawSymbolPayload)) :
    List RawOption × List (Ticker × MarketEntry) :=
  live_data.foldl prepare_step ([], [])

/-- RunStatistics, lines 29-34 of the source. -/
structure Stats where
  updates : ℤ
  successful_updates : ℤ
  total_processed : ℤ
  avg_time : ℚ
deriving DecidableEq

/-- The stats dict as initialized in __init__, lines 29-34. -/
def initStats : Stats :=
  { updates := 0, successful_updates := 0, total_processed := 0, avg_time := 0 }

/-- The success-path statistics block, lines 155-161 of the source:
updates and successful_updates increment, total_processed accumulates the
processed count, and avg_time is folded by the incremental running mean
whose divisor is the already incremented updates counter. -/
def recordSuccess (processed_count : ℤ) (elapsed_time : ℚ) (s : Stats) : Stats :=
  let updates := s.updates + 1
  { updates := updates
    successful_updates := s.successful_updates + 1
    total_processed := s.total_processed + processed_count
    avg_time := (s.avg_time * ((updates : ℚ) - 1) + elapsed_time) / (updates : ℚ) }

/-- The except-handler statistics block, line 170 of the source: only the
updates counter increments. -/
def recordFault (s : Stats) : Stats :=
  { s with updates := s.updates + 1 }

/-- Behavior of the fetch collaborator for one cycle: it returns a
mapping or raises (transport failure). -/
inductive FetchBehavior where
  | ok (live_data : List (Ticker × RawSymbolPayload))
  | raiseExc
deriving DecidableEq

/-- Behavior of the compute collaborator process_portfolio_options call
for one cycle: it returns a processed count or raises. -/
inductive ComputeBehavior where
  | ok (processed_count : ℤ)
  | raiseExc
deriving DecidableEq

/-- The try-block body of update_cycle, lines 129-166 of the source:
fetch, the two early returns for empty data and empty options, compute,
the greeks accessor, then the statistics block and return True.  A raise
anywhere in the block is the error case. -/
def update_cycle_body (fetch : FetchBehavior) (compute : ComputeBehavior)
    (greeksRaise : Bool) (elapsed_time : ℚ) (s : Stats) :
    Except Unit (Bool × Stats) :=
  match fetch with
  | .raiseExc => .error ()
  | .ok live_data =>
    if live_data.isEmpty then
      .ok (false, s)
    else
      let prepared := prepare_options_data live_data
      if prepared.1.isEmpty then
        .ok (false, s)
      else
        match compute with
        | .raiseExc => .error ()
        | .ok processed_count =>
          if greeksRaise then .error ()
          else .ok (true, recordSuccess processed_count elapsed_time s)

/-- update_cycle, lines 125-171 of the source: the try-block body with
the except handler that logs, increments updates and returns False. -/
def update_cycle (fetch : FetchBehavior) (compute : ComputeBehavior)
    (greeksRaise : Bool) (elapsed_time : ℚ) (s : Stats) : Bool × Stats :=
  match update_cycle_body fetch compute greeksRaise elapsed_time s with
  | .ok r => r
  | .error () => (false, recordFault s)

/-- The configured update interval, line 25 of the source. -/
def update_interval : ℕ := 60

/-- Wait trace of the run loop, lines 184-197 of the source, driven by a
prescribed sequence of cycle outcomes: a failed cycle sleeps 30 and
continues, skipping the normal wait; a successful cycle falls through to
sleep(update_interval). -/
def run_waits (interval : ℕ) : List Bool → List ℕ
  | [] => []
  | success :: rest =>
    if success then
      interval :: run_waits interval rest
    else
      30 :: run_waits interval rest

/-- A sequence of recorded successful cycles (processed count, elapsed
time), folded through the success-path statistics block. -/
def record_successes (cycles : List (ℤ × ℚ)) (s : Stats) : Stats :=
  cycles.foldl (fun st pc => recordSuccess pc.1 pc.2 st) s

/-! Shared lemmas about the embedded definitions. -/

/-- The per-option loop only ever appends the empty prefix, leaving the
accumulated options unchanged. -/
lemma foldl_extend_empty (ol : List RawOption) (os : List RawOption) :
    ol.foldl (fun os _opt => os ++ ([] : List RawOption).take 5) os = os := by
  induction ol generalizing os with
  | nil => rfl
  | cons a t ih =>
    rw [List.foldl_cons]
    have h : os ++ ([] : List RawOption).take 5 = os := by simp
    rw [h]
    exact ih os

/-- One prepare_options_data step leaves the options accumulator
unchanged and appends exactly one market entry, keyed by the symbol and
holding the extracted spot price. -/
lemma prepare_step_eq (acc : List RawOption × List (Ticker × MarketEntry))
    (entry : Ticker × RawSymbolPayload) :
    prepare_step acc entry =
      (acc.1, acc.2 ++ [(entry.1, { spot_price := extractSpot entry.2 })]) := by
  unfold prepare_step
  simp [foldl_extend_empty]

/-- Folding prepare_step keeps the options accumulator and appends one
market entry per input symbol, in input order. -/
lemma prepare_foldl (l : List (Ticker × RawSymbolPayload))
    (acc : List RawOption × List (Ticker × MarketEntry)) :
    l.foldl prepare_step acc =
      (acc.1, acc.2 ++ l.map fun e => (e.1, { spot_price := extractSpot e.2 })) := by
  induction l generalizing acc with
  | nil => simp
  | cons e t ih =>
    rw [List.foldl_cons, prepare_step_eq, ih]
    simp

/-- Closed form of prepare_options_data: the options output is always
empty and the market output lists one entry per symbol in order. -/
lemma prepare_eq (l : List (Ticker × RawSymbolPayload)) :
    prepare_options_data l =
      ([], l.map fun e => (e.1, { spot_price := extractSpot e.2 })) := by
  simpa [prepare_options_data] using prepare_foldl l ([], [])

/-- A cycle whose fetch returns without raising always takes one of the
two early returns: the outcome is False and the statistics are
untouched. -/
lemma update_cycle_ok (live : List (Ticker × RawSymbolPayload))
    (c : ComputeBehavior) (g : Bool) (e : ℚ) (s : Stats) :
    update_cycle (.ok live) c g e s = (false, s) := by
  unfold update_cycle update_cycle_body
  cases live with
  | nil => rfl
  | cons h t => simp [prepare_eq]

/-- A cycle whose fetch raises takes the except handler: outcome False,
only the updates counter incremented. -/
lemma update_cycle_raises (c : ComputeBehavior) (g : Bool) (e : ℚ) (s : Stats) :
    update_cycle .raiseExc c g e s = (false, recordFault s) := rfl

/-- Running-mean bookkeeping: folding the success-path block over a list
of cycles adds the cycle count to updates and keeps the product
avg_time * updates equal to the accumulated sum of elapsed times. -/
lemma record_successes_spec (cycles : List (ℤ × ℚ)) (s : Stats)
    (hu : 0 ≤ s.updates) :
    (record_successes cycles s).updates = s.updates + cycles.length ∧
    (record_successes cycles s).avg_time * (((record_successes cycles s).updates : ℤ) : ℚ) =
      s.avg_time * ((s.updates : ℤ) : ℚ) + (cycles.map Prod.snd).sum := by
  induction cycles generalizing s with
  | nil => simp [record_successes]
  | cons c t ih =>
    have hstep : record_successes (c :: t) s =
        record_successes t (recordSuccess c.1 c.2 s) := by
      simp [record_successes]
    have hu' : 0 ≤ (recordSuccess c.1 c.2 s).updates := by
      simp only [recordSuccess]
      omega
    obtain ⟨h1, h2⟩ := ih (recordSuccess c.1 c.2 s) hu'
    rw [hstep]
    constructor
    · rw [h1]
      simp only [recordSuccess, List.length_cons]
      omega
    · rw [h2]
      have hne : (((s.updates + 1 : ℤ) : ℚ)) ≠ 0 := by
        have : (0 : ℚ) < ((s.updates + 1 : ℤ) : ℚ) := by
          exact_mod_cast Int.lt_iff_add_one_le.mpr (by omega)
        exact ne_of_gt this
      simp only [recordSuccess]
      rw [div_mul_cancel₀ _ hne, List.map_cons, List.sum_cons]
      push_cast
      ring

/-! Claim theorems. -/

/-- Claim C1, counterexample: a cycle whose fetch returns an empty
mapping (the no-data outcome) leaves the updates counter unchanged, so
updates does not increase by exactly 1 on every cycle outcome as the
claim states. -/
theorem update_cycle_no_data_skips_updates_count :
    (update_cycle (.ok []) (.ok 0) false 0 initStats).2.updates ≠
      initStats.updates + 1 := by
  decide

/-- Claim C1, amended: the updates counter increases by exactly 1 only on
a caught-fault cycle; on every cycle whose fetch returns without raising
the executor takes an early return (no data, or no options since the
per-record processing is unimplemented) and updates is unchanged. -/
theorem updates_increment_characterization
    (d : List (Ticker × RawSymbolPayload)) (c : ComputeBehavior) (g : Bool)
    (e : ℚ) (s : Stats) :
    (update_cycle (.ok d) c g e s).2.updates = s.updates ∧
    (update_cycle .raiseExc c g e s).2.updates = s.updates + 1 := by
  refine ⟨?_, rfl⟩
  rw [update_cycle_ok]

/-- Claim C2, counterexample: for the AAPL payload whose nested
market-info value is a mapping holding spot_price 150, the normalizer
does not read 150 from the nested value: getattr finds no spot_price
attribute on a dict, the top-level fallback key is absent, and the
recorded entry is 0. -/
theorem nested_dict_spot_price_not_read :
    (prepare_options_data [("AAPL", .dictShape (some (.dictShape (some 150))) none
      (some [1, 2, 3, 4, 5, 6, 7]))]).2.lookup "AAPL" ≠
      some { spot_price := 150 } := by
  decide

/-- Claim C2, amended: the normalizer reads spot_price from the nested
market-info value only when that value exposes it as an attribute; for a
mapping-shaped nested value it falls back to the top-level spot_price
key, else 0.  For the AAPL payload whose nested market info is an
attribute-bearing object with spot_price 150, the recorded entry is
150. -/
theorem nested_spot_price_attribute_read (p t : Price) (x : Option Price)
    (o : Option (List RawOption)) :
    extractSpot (.dictShape (some (.objShape (some p))) (some t) o) = p ∧
    extractSpot (.dictShape (some (.objShape (some p))) none o) = p ∧
    extractSpot (.dictShape (some (.dictShape x)) (some t) o) = t ∧
    (prepare_options_data [("AAPL", .dictShape (some (.objShape (some 150))) none
      (some [1, 2, 3, 4, 5, 6, 7]))]).2.lookup "AAPL" =
      some { spot_price := 150 } := by
  refine ⟨rfl, rfl, rfl, by decide⟩

/-- Claim C3, code evaluated at the failing input: for a symbol carrying
7 raw options the normalizer contributes no option at all, not the first
5 — the per-record processing body is an elided comment, so
processed_options stays empty and the truncating extend adds nothing. -/
theorem seven_raw_options_yield_no_output :
    (prepare_options_data [("AAPL", .dictShape (some (.objShape (some 150))) none
      (some [1, 2, 3, 4, 5, 6, 7]))]).1 = [] := by
  decide

/-- Claim C9: for every fetched mapping the options sequence returned by
prepare_options_data is empty, every non-raising cycle takes the early
exit with statistics untouched, and no cycle ever returns a successful
outcome. -/
theorem options_always_empty_no_success
    (d : List (Ticker × RawSymbolPayload)) (f : FetchBehavior)
    (c : ComputeBehavior) (g : Bool) (e : ℚ) (s : Stats) :
    (prepare_options_data d).1 = [] ∧
    update_cycle (.ok d) c g e s = (false, s) ∧
    (update_cycle f c g e s).1 = false := by
  refine ⟨by simp [prepare_eq], update_cycle_ok d c g e s, ?_⟩
  cases f with
  | ok live => rw [update_cycle_ok]
  | raiseExc => rfl

/-- Claim C5: whenever the try-block body of a cycle raises, the except
handler performs exactly one increment of updates and leaves
successful_updates, total_processed and avg_time unchanged. -/
theorem fault_path_stats_frame (f : FetchBehavior) (c : ComputeBehavior)
    (g : Bool) (e : ℚ) (s : Stats)
    (h : update_cycle_body f c g e s = .error ()) :
    (update_cycle f c g e s).2.updates = s.updates + 1 ∧
    (update_cycle f c g e s).2.successful_updates = s.successful_updates ∧
    (update_cycle f c g e s).2.total_processed = s.total_processed ∧
    (update_cycle f c g e s).2.avg_time = s.avg_time := by
  unfold update_cycle
  rw [h]
  exact ⟨rfl, rfl, rfl, rfl⟩

/-- Claim C5 witness: the fault frame condition instantiated at a
raising fetch on the freshly initialized statistics. -/
theorem fault_path_stats_frame_witness :
    (update_cycle .raiseExc (.ok 0) false 0 initStats).2.updates =
      initStats.updates + 1 ∧
    (update_cycle .raiseExc (.ok 0) false 0 initStats).2.successful_updates =
      initStats.successful_updates ∧
    (update_cycle .raiseExc (.ok 0) false 0 initStats).2.total_processed =
      initStats.total_processed ∧
    (update_cycle .raiseExc (.ok 0) false 0 initStats).2.avg_time =
      initStats.avg_time :=
  fault_path_stats_frame .raiseExc (.ok 0) false 0 initStats rfl

/-- Claim C6: every fault raised inside the try-block body of a cycle is
caught at the update_cycle boundary and converted into the failed
outcome with only the fault-path statistics update; no fault propagates,
update_cycle being a total function into outcomes. -/
theorem faults_caught_at_boundary (f : FetchBehavior) (c : ComputeBehavior)
    (g : Bool) (e : ℚ) (s : Stats)
    (h : update_cycle_body f c g e s = .error ()) :
    update_cycle f c g e s = (false, recordFault s) := by
  unfold update_cycle
  rw [h]

/-- Claim C6 witness: a raising fetch collaborator is caught and yields
the failed outcome. -/
theorem faults_caught_at_boundary_witness :
    update_cycle .raiseExc (.ok 3) false 1 initStats =
      (false, recordFault initStats) :=
  faults_caught_at_boundary .raiseExc (.ok 3) false 1 initStats rfl

/-- Claim C7: the normalizer is a total function that records a market
entry for every input symbol in order, resolves a missing spot_price to
0 under each of the four shape combinations, and resolves a missing
options field to the empty sequence. -/
theorem normalizer_total_defaults (l : List (Ticker × RawSymbolPayload))
    (md : Option MarketInfo) (sp : Option Price)
    (o : Option (List RawOption)) :
    (prepare_options_data l).2.map Prod.fst = l.map Prod.fst ∧
    extractSpot (.dictShape (some (.objShape none)) none o) = 0 ∧
    extractSpot (.dictShape (some (.dictShape none)) none o) = 0 ∧
    extractSpot (.dictShape none none o) = 0 ∧
    extractSpot (.objShape none o) = 0 ∧
    extractOptionsList (.dictShape md sp none) = [] ∧
    extractOptionsList (.objShape sp none) = [] := by
  refine ⟨?_, rfl, rfl, rfl, rfl, rfl, rfl⟩
  simp [prepare_eq]

/-- Claim C8: in the run loop each failed cycle is followed by a 30-unit
wait (the same 30 units however many consecutive failures occur, the
normal interval wait being skipped) and each successful cycle by the
configured update interval of 60 units. -/
theorem scheduler_backoff_policy (outcomes : List Bool) (n : ℕ) :
    run_waits update_interval outcomes =
      outcomes.map (fun success => if success then 60 else 30) ∧
    run_waits update_interval (List.replicate n false) =
      List.replicate n 30 := by
  constructor
  · rw [show update_interval = 60 from rfl]
    induction outcomes with
    | nil => rfl
    | cons b rest ih => cases b <;> simp [run_waits, ih]
  · induction n with
    | zero => rfl
    | succ m ih => simp [List.replicate_succ, run_waits, ih]

/-- Claim C4, counterexample: a caught-fault record followed by one
successful record with elapsed time 1 leaves avg_time at 1/2, not at 1,
the arithmetic mean of the single successful cycle; the opposite order
leaves avg_time at 1, so the value is also order-dependent. -/
theorem avg_time_not_mean_after_fault :
    (recordSuccess 0 1 (recordFault initStats)).avg_time ≠ 1 ∧
    (recordSuccess 0 1 (recordFault initStats)).avg_time ≠
      (recordFault (recordSuccess 0 1 initStats)).avg_time := by
  constructor <;> norm_num [recordSuccess, recordFault, initStats]

/-- Claim C4, amended: when every recorded cycle is successful, avg_time
equals the arithmetic mean of the recorded elapsed times, independent of
order (it is their sum divided by their count); because the running-mean
divisor is the total updates counter, a caught-fault record can make
avg_time differ from the mean of the successful cycles and can make it
order-dependent, as the counterexample above witnesses. -/
theorem avg_time_mean_of_all_success_runs (cycles : List (ℤ × ℚ)) :
    (record_successes cycles initStats).avg_time =
      (cycles.map Prod.snd).sum / (cycles.length : ℚ) := by
  obtain ⟨h1, h2⟩ := record_successes_spec cycles initStats le_rfl
  rw [h1] at h2
  have hcast : (((initStats.updates + (cycles.length : ℤ)) : ℤ) : ℚ) =
      (cycles.length : ℚ) := by
    simp [initStats]
  rw [hcast] at h2
  rcases eq_or_ne (cycles.length : ℚ) 0 with h0 | h0
  · have hlen : cycles.length = 0 := by exact_mod_cast h0
    have hnil : cycles = [] := List.length_eq_zero.mp hlen
    subst hnil
    simp [record_successes, initStats]
  · rw [eq_div_iff h0]
    simpa [initStats] using h2

/-- Invariant of the RunStatistics state: every field is non-negative
and the successful count never exceeds the total count. -/
def StatsInv (s : Stats) : Prop :=
  0 ≤ s.updates ∧ 0 ≤ s.successful_updates ∧
  s.successful_updates ≤ s.updates ∧ 0 ≤ s.total_processed ∧ 0 ≤ s.avg_time

/-- Claim C10: the statistics invariant holds after initialization and
is preserved by the success-path block (for a non-negative processed
count and elapsed time), by the caught-fault block, and by a full
update_cycle on every path. -/
theorem stats_invariant_preserved (s : Stats) (p : ℤ) (e : ℚ)
    (f : FetchBehavior) (c : ComputeBehavior) (g : Bool)
    (hs : StatsInv s) (hp : 0 ≤ p) (he : 0 ≤ e) :
    StatsInv initStats ∧ StatsInv (recordSuccess p e s) ∧
    StatsInv (recordFault s) ∧ StatsInv (update_cycle f c g e s).2 := by
  obtain ⟨h1, h2, h3, h4, h5⟩ := hs
  have hfault : StatsInv (recordFault s) := by
    simp only [StatsInv, recordFault]
    exact ⟨by omega, h2, by omega, h4, h5⟩
  have hsucc : StatsInv (recordSuccess p e s) := by
    simp only [StatsInv, recordSuccess]
    refine ⟨by omega, by omega, by omega, by omega, ?_⟩
    apply div_nonneg
    · have hcast : (0 : ℚ) ≤ ((s.updates : ℤ) : ℚ) := by exact_mod_cast h1
      have havg : 0 ≤ s.avg_time * (((s.updates + 1 : ℤ) : ℚ) - 1) := by
        apply mul_nonneg h5
        push_cast
        linarith
      linarith
    · have hcast : (0 : ℚ) ≤ ((s.updates : ℤ) : ℚ) := by exact_mod_cast h1
      push_cast
      linarith
  refine ⟨?_, hsucc, hfault, ?_⟩
  · exact ⟨le_rfl, le_rfl, le_rfl, le_rfl, le_rfl⟩
  · cases f with
    | ok live =>
      rw [update_cycle_ok]
      exact ⟨h1, h2, h3, h4, h5⟩
    | raiseExc => exact hfault

/-- Claim C10 witness: the invariant instantiated at the initial
statistics, a processed count of 1 and an elapsed time of 1, with a
raising fetch for the full-cycle conjunct. -/
theorem stats_invariant_preserved_witness :
    StatsInv initStats ∧ StatsInv (recordSuccess 1 1 initStats) ∧
    StatsInv (recordFault initStats) ∧
    StatsInv (update_cycle .raiseExc (.ok 1) false 1 initStats).2 :=
  stats_invariant_preserved initStats 1 1 .raiseExc (.ok 1) false
    ⟨le_rfl, le_rfl, le_rfl, le_rfl, le_rfl⟩ (by norm_num) (by norm_num)
